import Mathlib

/-!
# SVG icon scraper (`src/scraper.js`): chunk partitioner, filename sanitizer,
# resolve-and-download protocol and result aggregation

Shallow embedding of the pure and the effectful functions of `src/scraper.js`.

* JavaScript arrays are `List`s, `array.slice(a, b)` is `(array.drop a).take (b - a)`.
* A loop that JavaScript could run forever is modelled with fuel: one unit of fuel per
  evaluation of the loop condition, `none` when the fuel runs out.
* A thrown value is any JavaScript value: an object or primitive whose `message` can be
  read and printed (every `Error` object), or `null`, `undefined` or a value with a symbol
  as `message`, on which the `catch` handler of `downloadIcon` itself throws.
* The browser page, the network and the file system are a session state `σ` that every
  primitive call reads and updates; a primitive may return a value or throw.
* Built-in functions of the language and of Node (`toLowerCase`, `trim`,
  `encodeURIComponent`, `path.join`, `path.basename`) are parameters.
* Calls to `console.log` and `console.error` and the 500 ms delay between two requests do
  not change any value modelled here and are left out.
-/

namespace Scraper

/-! ## Chunk partitioner (`chunkArray`, lines 160-169) -/

/-- Line 12: `const PARALLEL_TABS = 8`. -/
def PARALLEL_TABS : Nat := 8

/-- The value of `Math.ceil(n / w)` for a length `n` and a count `w ≥ 1`.  Array lengths
are below `2^32`, so the double division followed by `Math.ceil` is exact. -/
def mathCeilDiv (n w : Nat) : Nat := (n + w - 1) / w

/-- Lines 164-166: `for (let i = 0; i < array.length; i += chunkSize)
chunks.push(array.slice(i, i + chunkSize))`, started at index `i` with the chunks pushed
so far.  The first argument is the fuel. -/
def chunkLoop {α : Type} (array : List α) (chunkSize : Nat) :
    Nat → Nat → List (List α) → Option (List (List α))
  | 0, _, _ => none
  | fuel + 1, i, chunks =>
    if i < array.length then
      chunkLoop array chunkSize fuel (i + chunkSize)
        (chunks ++ [(array.drop i).take chunkSize])
    else
      some chunks

/-- Lines 160-169: `chunkArray(array, numChunks)`.  For `numChunks = 0` the quotient
`array.length / numChunks` is `Infinity` (`NaN` for the empty array): the loop body runs
once with `slice(0, Infinity)` when the array is non-empty and never otherwise. -/
def chunkArray {α : Type} (fuel : Nat) (array : List α) (numChunks : Nat) :
    Option (List (List α)) :=
  if numChunks = 0 then
    (if array.length = 0 then (if fuel = 0 then none else some [])
     else (if fuel < 2 then none else some [array]))
  else
    chunkLoop array (mathCeilDiv array.length numChunks) fuel 0 []


/-- The closed form of the chunk list, used to describe what the loop returns: `k`
slices of width `c`, the first one starting at index `i`. -/
def slicesFrom {α : Type} (array : List α) (c i k : Nat) : List (List α) :=
  (List.range k).map (fun j => (array.drop (i + j * c)).take c)

/-! ## Filename sanitizer (`sanitizeFilename`, lines 67-72) -/

/-- The characters listed in the class of the regular expression `/[^a-z0-9\-_]/g`
(line 70): the ranges `a-z` and `0-9` and the literals `-` and `_`. -/
def inClass (c : Char) : Bool :=
  ('a' ≤ c && c ≤ 'z') || ('0' ≤ c && c ≤ '9') || c == '-' || c == '_'

/-- Line 70: `filename.replace(/[^a-z0-9\-_]/g, '')`, a left-to-right scan in which every
character matched by the negated class is replaced by the empty string.  The expression
has no `u` flag, so a character outside the Basic Multilingual Plane is seen as two
surrogate code units; both are matched and removed, which is the removal of the
character. -/
def replaceNotInClass : List Char → List Char
  | [] => []
  | c :: cs => if inClass c then c :: replaceNotInClass cs else replaceNotInClass cs

/-- Lines 68-72: `sanitizeFilename(originalName, downloadedName)`.  The built-in
`String.prototype.toLowerCase` is a parameter. -/
def sanitizeFilename (toLowerCase : String → String)
    (originalName downloadedName : String) : String :=
  let filename := toLowerCase originalName
  let filename := String.mk (replaceNotInClass filename.data)
  filename ++ ".svg"

/-- What `String.prototype.toLowerCase` does to a character of the Basic Latin block:
`A`-`Z` go to `a`-`z`, every other character is kept. -/
def latinLowerChar (c : Char) : Char :=
  if 'A' ≤ c ∧ c ≤ 'Z' then Char.ofNat (c.toNat + 32) else c

/-- The lower-casing of a string of Basic Latin characters, character by character. -/
def latinToLowerCase (s : String) : String := String.mk (s.data.map latinLowerChar)

/-- A string of Basic Latin characters only (code points below 128). -/
def IsBasicLatin (s : String) : Prop := ∀ c ∈ s.data, c.toNat < 128

instance instDecidableIsBasicLatin (s : String) : Decidable (IsBasicLatin s) := by
  unfold IsBasicLatin
  infer_instance

/-- The one property of the built-in `toLowerCase` that the development relies on: on a
string of Basic Latin characters it is the character-wise map `A`-`Z` to `a`-`z`. -/
def LowersBasicLatin (toLowerCase : String → String) : Prop :=
  ∀ s : String, IsBasicLatin s → toLowerCase s = latinToLowerCase s

/-- The filename without its four-character extension `.svg`. -/
def removeExtension (filename : String) : String :=
  String.mk (filename.data.take (filename.data.length - 4))

/-! ## Resolve-and-download protocol (`downloadIcon`, lines 74-137) -/

/-- Line 6: `const BASE_URL`. -/
def BASE_URL : String := "https://simpleicons.org/"

/-- A thrown value, as the `catch` handler of `downloadIcon` (lines 133-136) observes it
through `error.message`: once in a template literal, once as the `error` property. -/
inductive JsThrown where
  /-- A value other than `null` and `undefined`, with its `message` property: a string
  for every `Error` object, `none` when the property is `undefined` (a thrown string or
  number, an object without message). -/
  | value (message : Option String)
  /-- The value `null`: reading `error.message` throws a `TypeError`. -/
  | null
  /-- The value `undefined`: reading `error.message` throws a `TypeError`. -/
  | undefined
  /-- A value whose `message` is a symbol: the template literal of line 134 throws a
  `TypeError`. -/
  | symbolMessage
deriving DecidableEq, Repr

/-- A `TypeError` object raised by the language itself, with its message. -/
def typeError (message : String) : JsThrown := .value (some message)

/-- The handler of lines 133-136 can read and print `error.message`. -/
def JsThrown.hasReadableMessage : JsThrown → Bool
  | .value _ => true
  | .null => false
  | .undefined => false
  | .symbolMessage => false

/-- The built-in functions and the path constant that the protocol uses. -/
structure Builtins where
  /-- The method `String.prototype.toLowerCase`. -/
  toLowerCase : String → String
  /-- The method `String.prototype.trim`. -/
  trim : String → String
  /-- The function `encodeURIComponent`, which throws on an ill-formed string. -/
  encodeURIComponent : String → Except JsThrown String
  /-- The function `path.join` on two segments. -/
  pathJoin : String → String → String
  /-- The function `path.basename`. -/
  pathBasename : String → String
  /-- Line 8: the constant `OUTPUT_DIR`, which depends on `__dirname`. -/
  OUTPUT_DIR : String

/-- What the callback of `page.evaluate` (lines 89-107) reads of the first
`main ul li` element. -/
structure Li where
  /-- The `textContent` of `firstLi.querySelector('h2')`, when there is such an element. -/
  h2 : Option String
  /-- The `src` attribute of `firstLi.querySelector('img[src^="/icons/"]')`, when there is
  such an element. -/
  img : Option String
deriving DecidableEq, Repr

/-- The object returned by the callback of `page.evaluate` (lines 103-106). -/
structure SvgData where
  iconName : String
  svgPath : String
deriving DecidableEq, Repr

/-- Lines 89-107: the callback of `page.evaluate`, run on the result of
`document.querySelector('main ul li')`. -/
def extractSvgData (trim : String → String) (firstLi : Option Li) : Option SvgData :=
  match firstLi with
  | none => none
  | some li =>
    let iconName := match li.h2 with
      | some textContent => trim textContent
      | none => "unknown"
    match li.img with
    | none => none
    | some svgPath => some { iconName := iconName, svgPath := svgPath }

/-- The primitives of one fetch session: a browser tab and the file system as this
session sees them.  Every primitive reads and updates the session state `σ` and either
returns or throws; `ρ` is the type of HTTP responses. -/
structure Session (σ ρ : Type) where
  /-- The call `page.goto(url, ...)`; it resolves to a response or to `null`. -/
  goto : String → σ → Except JsThrown (Option ρ) × σ
  /-- The call `page.waitForSelector(selector, ...)`. -/
  waitForSelector : String → σ → Except JsThrown Unit × σ
  /-- The call `page.evaluate(callback)`: the element `document.querySelector('main ul li')`
  on which the callback runs. -/
  evaluate : σ → Except JsThrown (Option Li) × σ
  /-- The call `svgResponse.text()`. -/
  text : ρ → σ → Except JsThrown String × σ
  /-- The call `fs.writeFile(outputPath, svgContent, 'utf-8')`. -/
  writeFile : String → String → σ → Except JsThrown Unit × σ

/-- The object returned by `downloadIcon` (lines 111, 131, 135); a property that is
absent or `undefined` is `none`. -/
structure Outcome where
  success : Bool
  iconName : String
  matchedName : Option String
  filename : Option String
  error : Option String
deriving DecidableEq, Repr

/-- Lines 77-131: the body of the `try` block of `downloadIcon`.  The argument `page` is
`none` when the caller passes `undefined`. -/
def downloadIconTry {σ ρ : Type} (B : Builtins) (page : Option (Session σ ρ))
    (iconName : String) (tabId : Nat) (s : σ) : Except JsThrown Outcome × σ :=
  match B.encodeURIComponent iconName with
  | .error e => (.error e, s)
  | .ok query =>
    let searchUrl := BASE_URL ++ "?q=" ++ query
    match page with
    | none => (.error (typeError "Cannot read properties of undefined (reading 'goto')"), s)
    | some page =>
      match page.goto searchUrl s with
      | (.error e, s1) => (.error e, s1)
      | (.ok _, s1) =>
        match page.waitForSelector "main ul li" s1 with
        | (.error e, s2) => (.error e, s2)
        | (.ok _, s2) =>
          match page.evaluate s2 with
          | (.error e, s3) => (.error e, s3)
          | (.ok firstLi, s3) =>
            match extractSvgData B.trim firstLi with
            | none =>
              (.ok { success := false, iconName := iconName, matchedName := none,
                     filename := none, error := none }, s3)
            | some svgData =>
              if svgData.svgPath = "" then
                (.ok { success := false, iconName := iconName, matchedName := none,
                       filename := none, error := none }, s3)
              else
                let svgUrl := "https://simpleicons.org" ++ svgData.svgPath
                match page.goto svgUrl s3 with
                | (.error e, s4) => (.error e, s4)
                | (.ok none, s4) =>
                  (.error (typeError "Cannot read properties of null (reading 'text')"), s4)
                | (.ok (some svgResponse), s4) =>
                  match page.text svgResponse s4 with
                  | (.error e, s5) => (.error e, s5)
                  | (.ok svgContent, s5) =>
                    let sanitizedFileName :=
                      sanitizeFilename B.toLowerCase iconName
                        (B.pathBasename svgData.svgPath)
                    let outputPath := B.pathJoin B.OUTPUT_DIR sanitizedFileName
                    match page.writeFile outputPath svgContent s5 with
                    | (.error e, s6) => (.error e, s6)
                    | (.ok _, s6) =>
                      (.ok { success := true, iconName := iconName,
                             matchedName := some svgData.iconName,
                             filename := some sanitizedFileName, error := none }, s6)

/-- Lines 133-136: the `catch` handler of `downloadIcon` on the caught value `error`.  It
evaluates `error.message` in the template literal of line 134 and again in the object of
line 135; on `null`, `undefined` and a symbol message the first evaluation throws. -/
def downloadIconCatch (iconName : String) : JsThrown → Except JsThrown Outcome
  | .value message =>
    .ok { success := false, iconName := iconName, matchedName := none,
          filename := none, error := message }
  | .null => .error (typeError "Cannot read properties of null (reading 'message')")
  | .undefined =>
    .error (typeError "Cannot read properties of undefined (reading 'message')")
  | .symbolMessage => .error (typeError "Cannot convert a Symbol value to a string")

/-- Lines 75-137: `downloadIcon(page, iconName, tabId)`: the `try` block and the `catch`
handler.  The result is `.error` when a fault leaves the function (the returned promise
rejects). -/
def downloadIcon {σ ρ : Type} (B : Builtins) (page : Option (Session σ ρ))
    (iconName : String) (tabId : Nat) (s : σ) : Except JsThrown Outcome × σ :=
  match downloadIconTry B page iconName tabId s with
  | (.ok outcome, s1) => (.ok outcome, s1)
  | (.error error, s1) => (downloadIconCatch iconName error, s1)

/-- Every step of the protocol returned without a fault and the extraction found an
image path: the condition under which `downloadIcon` reaches line 131. -/
def StepsSucceeded {σ ρ : Type} (B : Builtins) (page : Option (Session σ ρ))
    (iconName : String) (s : σ) : Prop :=
  ∃ (query : String) (P : Session σ ρ) (r1 : Option ρ) (s1 s2 s3 s4 s5 s6 : σ)
    (firstLi : Option Li) (svgData : SvgData) (svgResponse : ρ) (svgContent : String),
    B.encodeURIComponent iconName = .ok query ∧
    page = some P ∧
    P.goto (BASE_URL ++ "?q=" ++ query) s = (.ok r1, s1) ∧
    P.waitForSelector "main ul li" s1 = (.ok (), s2) ∧
    P.evaluate s2 = (.ok firstLi, s3) ∧
    extractSvgData B.trim firstLi = some svgData ∧
    svgData.svgPath ≠ "" ∧
    P.goto ("https://simpleicons.org" ++ svgData.svgPath) s3 = (.ok (some svgResponse), s4) ∧
    P.text svgResponse s4 = (.ok svgContent, s5) ∧
    P.writeFile
      (B.pathJoin B.OUTPUT_DIR (sanitizeFilename B.toLowerCase iconName
        (B.pathBasename svgData.svgPath))) svgContent s5 = (.ok (), s6)

/-- The resolve phase ran without a fault but found no result entry or no image path:
the condition under which `downloadIcon` returns at line 111. -/
def NoMatchFound {σ ρ : Type} (B : Builtins) (page : Option (Session σ ρ))
    (iconName : String) (s : σ) : Prop :=
  ∃ (query : String) (P : Session σ ρ) (r1 : Option ρ) (s1 s2 s3 : σ)
    (firstLi : Option Li),
    B.encodeURIComponent iconName = .ok query ∧
    page = some P ∧
    P.goto (BASE_URL ++ "?q=" ++ query) s = (.ok r1, s1) ∧
    P.waitForSelector "main ul li" s1 = (.ok (), s2) ∧
    P.evaluate s2 = (.ok firstLi, s3) ∧
    (extractSvgData B.trim firstLi = none ∨
      ∃ svgData, extractSvgData B.trim firstLi = some svgData ∧ svgData.svgPath = "")

/-- The first step of the `try` block that fails, and the value it throws: the query
encoding, the read of `page.goto` on an `undefined` page, the navigation to the search
view, the wait for results, the evaluation, the navigation to the asset, the call of
`text` on a `null` response, the body read, the file write. -/
inductive FirstFault {σ ρ : Type} (B : Builtins) (page : Option (Session σ ρ))
    (iconName : String) (s : σ) : JsThrown → Prop where
  | encode (e : JsThrown) :
      B.encodeURIComponent iconName = .error e → FirstFault B page iconName s e
  | noPage (query : String) :
      B.encodeURIComponent iconName = .ok query → page = none →
      FirstFault B page iconName s
        (typeError "Cannot read properties of undefined (reading 'goto')")
  | search (query : String) (P : Session σ ρ) (e : JsThrown) (s1 : σ) :
      B.encodeURIComponent iconName = .ok query → page = some P →
      P.goto (BASE_URL ++ "?q=" ++ query) s = (.error e, s1) →
      FirstFault B page iconName s e
  | wait (query : String) (P : Session σ ρ) (r1 : Option ρ) (e : JsThrown) (s1 s2 : σ) :
      B.encodeURIComponent iconName = .ok query → page = some P →
      P.goto (BASE_URL ++ "?q=" ++ query) s = (.ok r1, s1) →
      P.waitForSelector "main ul li" s1 = (.error e, s2) →
      FirstFault B page iconName s e
  | evaluate (query : String) (P : Session σ ρ) (r1 : Option ρ) (e : JsThrown)
      (s1 s2 s3 : σ) :
      B.encodeURIComponent iconName = .ok query → page = some P →
      P.goto (BASE_URL ++ "?q=" ++ query) s = (.ok r1, s1) →
      P.waitForSelector "main ul li" s1 = (.ok (), s2) →
      P.evaluate s2 = (.error e, s3) →
      FirstFault B page iconName s e
  | asset (query : String) (P : Session σ ρ) (r1 : Option ρ) (e : JsThrown)
      (s1 s2 s3 s4 : σ) (firstLi : Option Li) (svgData : SvgData) :
      B.encodeURIComponent iconName = .ok query → page = some P →
      P.goto (BASE_URL ++ "?q=" ++ query) s = (.ok r1, s1) →
      P.waitForSelector "main ul li" s1 = (.ok (), s2) →
      P.evaluate s2 = (.ok firstLi, s3) →
      extractSvgData B.trim firstLi = some svgData → svgData.svgPath ≠ "" →
      P.goto ("https://simpleicons.org" ++ svgData.svgPath) s3 = (.error e, s4) →
      FirstFault B page iconName s e
  | nullResponse (query : String) (P : Session σ ρ) (r1 : Option ρ)
      (s1 s2 s3 s4 : σ) (firstLi : Option Li) (svgData : SvgData) :
      B.encodeURIComponent iconName = .ok query → page = some P →
      P.goto (BASE_URL ++ "?q=" ++ query) s = (.ok r1, s1) →
      P.waitForSelector "main ul li" s1 = (.ok (), s2) →
      P.evaluate s2 = (.ok firstLi, s3) →
      extractSvgData B.trim firstLi = some svgData → svgData.svgPath ≠ "" →
      P.goto ("https://simpleicons.org" ++ svgData.svgPath) s3 = (.ok none, s4) →
      FirstFault B page iconName s
        (typeError "Cannot read properties of null (reading 'text')")
  | text (query : String) (P : Session σ ρ) (r1 : Option ρ) (e : JsThrown)
      (s1 s2 s3 s4 s5 : σ) (firstLi : Option Li) (svgData : SvgData) (svgResponse : ρ) :
      B.encodeURIComponent iconName = .ok query → page = some P →
      P.goto (BASE_URL ++ "?q=" ++ query) s = (.ok r1, s1) →
      P.waitForSelector "main ul li" s1 = (.ok (), s2) →
      P.evaluate s2 = (.ok firstLi, s3) →
      extractSvgData B.trim firstLi = some svgData → svgData.svgPath ≠ "" →
      P.goto ("https://simpleicons.org" ++ svgData.svgPath) s3
        = (.ok (some svgResponse), s4) →
      P.text svgResponse s4 = (.error e, s5) →
      FirstFault B page iconName s e
  | write (query : String) (P : Session σ ρ) (r1 : Option ρ) (e : JsThrown)
      (s1 s2 s3 s4 s5 s6 : σ) (firstLi : Option Li) (svgData : SvgData) (svgResponse : ρ)
      (svgContent : String) :
      B.encodeURIComponent iconName = .ok query → page = some P →
      P.goto (BASE_URL ++ "?q=" ++ query) s = (.ok r1, s1) →
      P.waitForSelector "main ul li" s1 = (.ok (), s2) →
      P.evaluate s2 = (.ok firstLi, s3) →
      extractSvgData B.trim firstLi = some svgData → svgData.svgPath ≠ "" →
      P.goto ("https://simpleicons.org" ++ svgData.svgPath) s3
        = (.ok (some svgResponse), s4) →
      P.text svgResponse s4 = (.ok svgContent, s5) →
      P.writeFile
        (B.pathJoin B.OUTPUT_DIR (sanitizeFilename B.toLowerCase iconName
          (B.pathBasename svgData.svgPath))) svgContent s5 = (.error e, s6) →
      FirstFault B page iconName s e

/-- Whatever a primitive of the session throws, the handler can read and print its
`message`: no primitive rejects with `null`, `undefined` or a symbol message. -/
def ThrowsReadable {σ ρ : Type} (P : Session σ ρ) : Prop :=
  (∀ url s e s', P.goto url s = (.error e, s') → e.hasReadableMessage = true) ∧
  (∀ selector s e s', P.waitForSelector selector s = (.error e, s') →
    e.hasReadableMessage = true) ∧
  (∀ s e s', P.evaluate s = (.error e, s') → e.hasReadableMessage = true) ∧
  (∀ r s e s', P.text r s = (.error e, s') → e.hasReadableMessage = true) ∧
  (∀ outputPath svgContent s e s', P.writeFile outputPath svgContent s = (.error e, s') →
    e.hasReadableMessage = true)

/-- Whatever `encodeURIComponent` throws (a `URIError`), the handler can read and print
its `message`. -/
def EncodeThrowsReadable (B : Builtins) : Prop :=
  ∀ name e, B.encodeURIComponent name = .error e → e.hasReadableMessage = true

/-! ## Fetch session (`processIconBatch`, lines 139-157) -/

/-- Lines 143-154: the loop of `processIconBatch` over the names still to process, with
the `results` pushed so far.  A fault thrown by `downloadIcon` would leave the loop. -/
def processIconBatchLoop {σ ρ : Type} (B : Builtins) (page : Option (Session σ ρ))
    (tabId totalIcons : Nat) : List String → List Outcome → σ →
    Except JsThrown (List Outcome) × σ
  | [], results, s => (.ok results, s)
  | iconName :: rest, results, s =>
    match downloadIcon B page iconName tabId s with
    | (.error e, s1) => (.error e, s1)
    | (.ok result, s1) =>
      processIconBatchLoop B page tabId totalIcons rest (results ++ [result]) s1

/-- Lines 140-157: `processIconBatch(page, iconNames, tabId, totalIcons)`. -/
def processIconBatch {σ ρ : Type} (B : Builtins) (page : Option (Session σ ρ))
    (iconNames : List String) (tabId totalIcons : Nat) (s : σ) :
    Except JsThrown (List Outcome) × σ :=
  processIconBatchLoop B page tabId totalIcons iconNames [] s

/-! ## Orchestration (`main`, lines 192-239) -/

/-- The primitives of the browser: `browser.newPage()` and `page.setViewport(...)`, over
a browser state `β`. -/
structure Browser (β σ ρ : Type) where
  newPage : β → Except JsThrown (Session σ ρ) × β
  setViewport : Session σ ρ → β → Except JsThrown Unit × β

/-- Lines 216-221: the loop that creates the tabs, with `n` iterations left and the
`pages` pushed so far. -/
def createPages {β σ ρ : Type} (Br : Browser β σ ρ) :
    Nat → List (Session σ ρ) → β → Except JsThrown (List (Session σ ρ)) × β
  | 0, pages, b => (.ok pages, b)
  | n + 1, pages, b =>
    match Br.newPage b with
    | (.error e, b1) => (.error e, b1)
    | (.ok page, b1) =>
      match Br.setViewport page b1 with
      | (.error e, b2) => (.error e, b2)
      | (.ok _, b2) => createPages Br n (pages ++ [page]) b2

/-- The call `array.map((chunk, index) => f(chunk, index))`, from index `index` on. -/
def mapWithIndex {α γ : Type} (f : α → Nat → γ) : Nat → List α → List γ
  | _, [] => []
  | index, a :: rest => f a index :: mapWithIndex f (index + 1) rest

/-- The call `Promise.all(promises)` on settled promises: the array of the values in the
order of the promises when all are fulfilled, a rejection otherwise. -/
def promiseAll {α : Type} : List (Except JsThrown α) → Except JsThrown (List α)
  | [] => .ok []
  | .error e :: _ => .error e
  | .ok a :: rest =>
    match promiseAll rest with
    | .error e => .error e
    | .ok values => .ok (a :: values)

/-- How the part of `main` between reading the names and line 239 ends. -/
inductive MainRun where
  /-- The loop of `chunkArray` does not stop. -/
  | diverges
  /-- A fault leaves `main`. -/
  | throws (e : JsThrown)
  /-- Lines 194-197: no name was read, `main` returns before any session starts. -/
  | noNames
  /-- Line 239: the value of `results`. -/
  | results (rs : List Outcome)
deriving DecidableEq, Repr

/-- Lines 193-239 of `main`, from the names read by `readIconNames` to the flattened
`results`.  The sessions run concurrently, each on its own tab: session `index` starts
from the state `sessionState index`, and whatever the interleaving delivers to it is the
behaviour of its own primitives. -/
def mainFetch {β σ ρ : Type} (B : Builtins) (Br : Browser β σ ρ)
    (launch : Except JsThrown β) (sessionState : Nat → σ) (fuel : Nat)
    (iconNames : List String) : MainRun :=
  if iconNames.length = 0 then .noNames
  else
    match launch with
    | .error e => .throws e
    | .ok b0 =>
      match createPages Br PARALLEL_TABS [] b0 with
      | (.error e, _) => .throws e
      | (.ok pages, _) =>
        match chunkArray fuel iconNames PARALLEL_TABS with
        | none => .diverges
        | some iconChunks =>
          match promiseAll (mapWithIndex (fun chunk index =>
              (processIconBatch B pages[index]? chunk (index + 1) iconNames.length
                (sessionState index)).1) 0 iconChunks) with
          | .error e => .throws e
          | .ok allResults => .results allResults.flatten

/-! ## A concrete catalog, at which the general theorems are evaluated -/

/-- Built-ins for Basic Latin names without reserved characters: lower-casing character
by character, no surrounding white space to trim beyond blanks, and nothing for
`encodeURIComponent` to escape. -/
def demoBuiltins : Builtins where
  toLowerCase := latinToLowerCase
  trim := fun t =>
    String.mk ((t.data.dropWhile (· == ' ')).reverse.dropWhile (· == ' ')).reverse
  encodeURIComponent := fun name => .ok name
  pathJoin := fun dir file => dir ++ "/" ++ file
  pathBasename := fun p => String.mk (p.data.reverse.takeWhile (· != '/')).reverse
  OUTPUT_DIR := "output/svgs"

/-- The state of a demo session: the address the tab shows and the files written. -/
structure DemoState where
  url : String
  files : List (String × String)
deriving DecidableEq, Repr

/-- A catalog in which every search shows the entry `GitHub`, except the search for
`xxxxxxnonexistentxxxxxx`, for which no result appears before the timeout. -/
def demoSession : Session DemoState String where
  goto := fun url s => (.ok (some url), { s with url := url })
  waitForSelector := fun _ s =>
    if s.url = BASE_URL ++ "?q=" ++ "xxxxxxnonexistentxxxxxx" then
      (.error (.value (some "Waiting for selector failed: timeout 15000ms exceeded")), s)
    else (.ok (), s)
  evaluate := fun s => (.ok (some { h2 := some " GitHub ", img := some "/icons/github.svg" }), s)
  text := fun r s => (.ok ("<svg>" ++ r ++ "</svg>"), s)
  writeFile := fun outputPath svgContent s =>
    (.ok (), { s with files := (outputPath, svgContent) :: s.files })

/-- A catalog whose first result entry has a heading but no image under `/icons/`. -/
def noImageSession : Session DemoState String where
  goto := fun url s => (.ok (some url), { s with url := url })
  waitForSelector := fun _ s => (.ok (), s)
  evaluate := fun s => (.ok (some { h2 := some "Sponsored", img := none }), s)
  text := fun r s => (.ok r, s)
  writeFile := fun outputPath svgContent s =>
    (.ok (), { s with files := (outputPath, svgContent) :: s.files })

/-- The catalog of `demoSession`, except that the navigation to the search for `broken`
rejects with `null`. -/
def nullRejectSession : Session DemoState String where
  goto := fun url s =>
    if url = BASE_URL ++ "?q=" ++ "broken" then (.error .null, s)
    else (.ok (some url), { s with url := url })
  waitForSelector := demoSession.waitForSelector
  evaluate := demoSession.evaluate
  text := demoSession.text
  writeFile := demoSession.writeFile

/-- A browser whose every new tab is a `nullRejectSession`. -/
def nullRejectBrowser : Browser Unit DemoState String where
  newPage := fun b => (.ok nullRejectSession, b)
  setViewport := fun _ b => (.ok (), b)

/-- A browser whose every new tab is a `demoSession`. -/
def demoBrowser : Browser Unit DemoState String where
  newPage := fun b => (.ok demoSession, b)
  setViewport := fun _ b => (.ok (), b)

/-- The state of a tab that has not navigated yet, with no file written. -/
def demoStart : DemoState := { url := "about:blank", files := [] }

end Scraper

namespace Scraper

/-! ## Lemmas on the chunk partitioner -/

theorem mathCeilDiv_zero (c : Nat) : mathCeilDiv 0 c = 0 := by
  unfold mathCeilDiv
  rcases Nat.eq_zero_or_pos c with h | h
  · subst h; simp
  · exact Nat.div_eq_of_lt (by omega)

theorem mathCeilDiv_step (m c : Nat) (hm : 0 < m) (hc : 0 < c) :
    mathCeilDiv m c = mathCeilDiv (m - c) c + 1 := by
  unfold mathCeilDiv
  by_cases h : c ≤ m
  · have : m + c - 1 = (m - c + c - 1) + c := by omega
    rw [this, Nat.add_div_right _ hc]
  · have h0 : m - c = 0 := by omega
    rw [h0]
    have h1 : (0 + c - 1) / c = 0 := Nat.div_eq_of_lt (by omega)
    rw [h1]
    have : m + c - 1 = (m - 1) + c := by omega
    rw [this, Nat.add_div_right _ hc, Nat.div_eq_of_lt (by omega)]

theorem mathCeilDiv_pos (n w : Nat) (hn : 0 < n) (hw : 0 < w) : 0 < mathCeilDiv n w := by
  unfold mathCeilDiv
  exact Nat.div_pos (by omega) hw

theorem slicesFrom_succ {α : Type} (array : List α) (c i k : Nat) :
    slicesFrom array c i (k + 1) = (array.drop i).take c :: slicesFrom array c (i + c) k := by
  unfold slicesFrom
  rw [List.range_succ_eq_map]
  simp only [List.map_cons, List.map_map, Nat.zero_mul, Nat.add_zero]
  congr 1
  apply List.map_congr_left
  intro j _
  simp only [Function.comp, Nat.succ_eq_add_one]
  have : i + (j + 1) * c = i + c + j * c := by ring
  rw [this]

theorem chunkLoop_eq {α : Type} (array : List α) (c : Nat) (hc : 0 < c) :
    ∀ (fuel i : Nat) (acc : List (List α)), 0 < fuel → array.length < fuel + i →
      chunkLoop array c fuel i acc
        = some (acc ++ slicesFrom array c i (mathCeilDiv (array.length - i) c)) := by
  intro fuel
  induction fuel with
  | zero =>
    intro i acc h0 _
    exact absurd h0 (Nat.lt_irrefl 0)
  | succ fuel ih =>
    intro i acc _ h
    unfold chunkLoop
    by_cases hi : i < array.length
    · rw [if_pos hi, ih (i + c) _ (by omega) (by omega)]
      rw [mathCeilDiv_step (array.length - i) c (by omega) hc, slicesFrom_succ]
      have : array.length - i - c = array.length - (i + c) := by omega
      rw [this]
      simp
    · rw [if_neg hi]
      have h0 : array.length - i = 0 := by omega
      rw [h0, mathCeilDiv_zero]
      simp [slicesFrom]

theorem mathCeilDiv_le_iff (n c k : Nat) (hc : 0 < c) : mathCeilDiv n c ≤ k ↔ n ≤ k * c := by
  unfold mathCeilDiv
  rw [← Nat.lt_succ_iff, Nat.div_lt_iff_lt_mul hc, Nat.succ_mul]
  omega

theorem mathCeilDiv_eq_ceil (n w : Nat) (hw : 0 < w) :
    mathCeilDiv n w = ⌈(n : ℚ) / (w : ℚ)⌉₊ := by
  have hwq : (0 : ℚ) < (w : ℚ) := by exact_mod_cast hw
  apply Nat.le_antisymm
  · rw [mathCeilDiv_le_iff n w _ hw]
    have h1 : (n : ℚ) / (w : ℚ) ≤ (⌈(n : ℚ) / (w : ℚ)⌉₊ : ℚ) := Nat.le_ceil _
    have h2 : (n : ℚ) ≤ (⌈(n : ℚ) / (w : ℚ)⌉₊ : ℚ) * (w : ℚ) := (div_le_iff₀ hwq).mp h1
    exact_mod_cast h2
  · rw [Nat.ceil_le, div_le_iff₀ hwq]
    have h : n ≤ mathCeilDiv n w * w := (mathCeilDiv_le_iff n w _ hw).mp (Nat.le_refl _)
    exact_mod_cast h

theorem slicesFrom_length {α : Type} (array : List α) (c i k : Nat) :
    (slicesFrom array c i k).length = k := by
  simp [slicesFrom]

theorem slicesFrom_flatten {α : Type} (array : List α) (c : Nat) :
    ∀ (k i : Nat), array.length ≤ i + k * c →
      (slicesFrom array c i k).flatten = array.drop i := by
  intro k
  induction k with
  | zero =>
    intro i h
    have h1 : array.length ≤ i := by simpa using h
    simp [slicesFrom, List.drop_eq_nil_of_le h1]
  | succ k ih =>
    intro i h
    rw [slicesFrom_succ, List.flatten_cons, ih (i + c) (by rw [Nat.succ_mul] at h; omega)]
    have : array.drop (i + c) = (array.drop i).drop c := by rw [List.drop_drop]
    rw [this, List.take_append_drop]

theorem slicesFrom_getElem? {α : Type} (array : List α) (c i k j : Nat)
    (ch : List α) (h : (slicesFrom array c i k)[j]? = some ch) :
    j < k ∧ ch = (array.drop (i + j * c)).take c := by
  unfold slicesFrom at h
  rw [List.getElem?_map] at h
  by_cases hj : j < k
  · rw [List.getElem?_range hj] at h
    simp only [Option.map_some', Option.some.injEq] at h
    exact ⟨hj, h.symm⟩
  · have : (List.range k)[j]? = none := by
      apply List.getElem?_eq_none
      simp only [List.length_range]
      omega
    rw [this] at h
    simp at h

/-- With a positive count and more fuel than names the loop stops, and the chunks are the
slices of width `ceil(N / W)` that cover the array. -/
theorem chunkArray_eq {α : Type} (array : List α) (W fuel : Nat) (hW : 0 < W)
    (hfuel : array.length < fuel) :
    chunkArray fuel array W
      = some (slicesFrom array (mathCeilDiv array.length W) 0
          (mathCeilDiv array.length (mathCeilDiv array.length W))) := by
  unfold chunkArray
  rw [if_neg (by omega)]
  rcases Nat.eq_zero_or_pos array.length with h0 | hpos
  · obtain ⟨f, rfl⟩ : ∃ f, fuel = f + 1 := ⟨fuel - 1, by omega⟩
    unfold chunkLoop
    rw [if_neg (by omega), h0, mathCeilDiv_zero, mathCeilDiv_zero]
    simp [slicesFrom]
  · have hc := mathCeilDiv_pos array.length W hpos hW
    rw [chunkLoop_eq array _ hc fuel 0 [] (by omega) (by omega)]
    simp

theorem chunk_count_le {n W : Nat} (hW : 0 < W) :
    mathCeilDiv n (mathCeilDiv n W) ≤ min W n := by
  rcases Nat.eq_zero_or_pos n with h0 | hpos
  · subst h0; simp [mathCeilDiv_zero]
  · have hc := mathCeilDiv_pos n W hpos hW
    apply Nat.le_min.mpr
    constructor
    · rw [mathCeilDiv_le_iff _ _ _ hc, Nat.mul_comm]
      exact (mathCeilDiv_le_iff n W _ hW).mp (Nat.le_refl _)
    · rw [mathCeilDiv_le_iff _ _ _ hc]
      exact Nat.le_mul_of_pos_right n hc

/-! ## Chunk partitioner: the claims -/

theorem slicesFrom_cover {α : Type} (names : List α) (W : Nat) (hW : 0 < W) :
    (slicesFrom names (mathCeilDiv names.length W) 0
      (mathCeilDiv names.length (mathCeilDiv names.length W))).flatten = names := by
  rcases Nat.eq_zero_or_pos names.length with h0 | hpos
  · rw [h0, mathCeilDiv_zero, mathCeilDiv_zero]
    have : names = [] := List.length_eq_zero.mp h0
    simp [slicesFrom, this]
  · have hc := mathCeilDiv_pos names.length W hpos hW
    rw [slicesFrom_flatten names _ _ 0, List.drop_zero]
    rw [Nat.zero_add]
    exact (mathCeilDiv_le_iff _ _ _ hc).mp (Nat.le_refl _)

/-- C1: for every list of names and every worker count `W ≥ 1`, the loop of `chunkArray`
stops (any fuel above the number of names is enough) and the concatenation of the
returned chunks, in order, is the original list. -/
theorem chunkArray_flatten {α : Type} (names : List α) (W fuel : Nat) (hW : 1 ≤ W)
    (hfuel : names.length < fuel) :
    ∃ chunks, chunkArray fuel names W = some chunks ∧ chunks.flatten = names :=
  ⟨_, chunkArray_eq names W fuel hW hfuel, slicesFrom_cover names W hW⟩

theorem chunkArray_flatten_witness :
    ∃ chunks, chunkArray 6 ["github", "gitlab", "npm", "docker", "react"] 2 = some chunks
      ∧ chunks.flatten = ["github", "gitlab", "npm", "docker", "react"] :=
  chunkArray_flatten ["github", "gitlab", "npm", "docker", "react"] 2 6 (by decide) (by decide)

/-- C2: at nine names and the eight tabs of `PARALLEL_TABS` the chunk size is
`ceil(9 / 8) = 2`, and `chunkArray` returns five chunks, not the `min(8, 9) = 8` of the
claim. -/
theorem chunkArray_nine_names_eight_tabs :
    chunkArray 10 ["a", "b", "c", "d", "e", "f", "g", "h", "i"] PARALLEL_TABS
        = some [["a", "b"], ["c", "d"], ["e", "f"], ["g", "h"], ["i"]]
      ∧ ([["a", "b"], ["c", "d"], ["e", "f"], ["g", "h"], ["i"]] : List (List String)).length
          ≠ min PARALLEL_TABS (["a", "b", "c", "d", "e", "f", "g", "h", "i"] : List String).length := by
  constructor
  · rfl
  · decide

/-- C3: for every non-empty list of `N` names and every worker count `W ≥ 1`, every chunk
returned by `chunkArray` except the last has exactly `ceil(N / W)` elements, and the last
chunk has at least one and at most `ceil(N / W)` elements. -/
theorem chunkArray_chunk_sizes {α : Type} (names : List α) (W fuel : Nat) (hW : 1 ≤ W)
    (hne : names ≠ []) (hfuel : names.length < fuel) :
    ∃ chunks, chunkArray fuel names W = some chunks ∧ chunks ≠ [] ∧
      mathCeilDiv names.length W = ⌈(names.length : ℚ) / (W : ℚ)⌉₊ ∧
      ∀ (j : Nat) (chunk : List α), chunks[j]? = some chunk →
        (j + 1 < chunks.length → chunk.length = mathCeilDiv names.length W) ∧
        (j + 1 = chunks.length →
          1 ≤ chunk.length ∧ chunk.length ≤ mathCeilDiv names.length W) := by
  have hpos : 0 < names.length := List.length_pos.mpr hne
  have hc := mathCeilDiv_pos names.length W hpos hW
  have hk := mathCeilDiv_pos names.length _ hpos hc
  refine ⟨_, chunkArray_eq names W fuel hW hfuel, ?_, mathCeilDiv_eq_ceil _ _ hW, ?_⟩
  · intro h
    have := congrArg List.length h
    rw [slicesFrom_length] at this
    simp at this
    omega
  · intro j chunk hj
    obtain ⟨hjk, rfl⟩ := slicesFrom_getElem? _ _ _ _ _ _ hj
    rw [slicesFrom_length, List.length_take, List.length_drop, Nat.zero_add]
    constructor
    · intro hlt
      have h1 : ¬ (mathCeilDiv names.length (mathCeilDiv names.length W) ≤ j + 1) := by omega
      rw [mathCeilDiv_le_iff _ _ _ hc, Nat.succ_mul] at h1
      omega
    · intro heq
      have h1 : ¬ (mathCeilDiv names.length (mathCeilDiv names.length W) ≤ j) := by omega
      rw [mathCeilDiv_le_iff _ _ _ hc] at h1
      omega

theorem chunkArray_chunk_sizes_witness :
    ∃ chunks, chunkArray 6 ["github", "gitlab", "npm", "docker", "react"] 2 = some chunks ∧
      chunks ≠ [] ∧
      mathCeilDiv ["github", "gitlab", "npm", "docker", "react"].length 2
        = ⌈((["github", "gitlab", "npm", "docker", "react"].length : ℕ) : ℚ) / ((2 : ℕ) : ℚ)⌉₊ ∧
      ∀ (j : Nat) (chunk : List String), chunks[j]? = some chunk →
        (j + 1 < chunks.length →
          chunk.length = mathCeilDiv ["github", "gitlab", "npm", "docker", "react"].length 2) ∧
        (j + 1 = chunks.length →
          1 ≤ chunk.length ∧
          chunk.length ≤ mathCeilDiv ["github", "gitlab", "npm", "docker", "react"].length 2) :=
  chunkArray_chunk_sizes ["github", "gitlab", "npm", "docker", "react"] 2 6
    (by decide) (by decide) (by decide)

/-! ## Filename sanitizer: lemmas and claims -/

theorem replaceNotInClass_eq_filter (cs : List Char) :
    replaceNotInClass cs = cs.filter (fun c => inClass c) := by
  induction cs with
  | nil => rfl
  | cons c cs ih =>
    unfold replaceNotInClass
    by_cases h : inClass c = true
    · rw [if_pos h, ih, List.filter_cons_of_pos (by simpa using h)]
    · rw [if_neg h, ih, List.filter_cons_of_neg (by simpa using h)]

theorem replaceNotInClass_fixed (cs : List Char) (h : ∀ c ∈ cs, inClass c = true) :
    replaceNotInClass cs = cs := by
  rw [replaceNotInClass_eq_filter]
  exact List.filter_eq_self.mpr (by simpa using h)

theorem char_le_iff (a b : Char) : a ≤ b ↔ a.toNat ≤ b.toNat := Iff.rfl

theorem inClass_bounds (c : Char) (h : inClass c = true) :
    c.toNat < 128 ∧ ¬ ('A' ≤ c ∧ c ≤ 'Z') := by
  unfold inClass at h
  simp only [Bool.or_eq_true, Bool.and_eq_true, decide_eq_true_eq, beq_iff_eq] at h
  simp only [char_le_iff] at h ⊢
  have ha : ('a' : Char).toNat = 97 := rfl
  have hz : ('z' : Char).toNat = 122 := rfl
  have h0 : ('0' : Char).toNat = 48 := rfl
  have h9 : ('9' : Char).toNat = 57 := rfl
  have hA : ('A' : Char).toNat = 65 := rfl
  have hZ : ('Z' : Char).toNat = 90 := rfl
  rcases h with ((h | h) | h) | h
  · omega
  · omega
  · subst h; decide
  · subst h; decide

theorem latinLowerChar_fixed (c : Char) (h : inClass c = true) : latinLowerChar c = c := by
  unfold latinLowerChar
  rw [if_neg (inClass_bounds c h).2]

theorem mem_replaceNotInClass (cs : List Char) :
    ∀ c ∈ replaceNotInClass cs, inClass c = true := by
  intro c hc
  rw [replaceNotInClass_eq_filter] at hc
  simpa using (List.mem_filter.mp hc).2

theorem sanitizeFilename_data (toLowerCase : String → String) (originalName d : String) :
    (sanitizeFilename toLowerCase originalName d).data
      = replaceNotInClass (toLowerCase originalName).data ++ ['.', 's', 'v', 'g'] := by
  unfold sanitizeFilename
  simp only [String.data_append]

theorem removeExtension_sanitizeFilename (toLowerCase : String → String)
    (originalName d : String) :
    removeExtension (sanitizeFilename toLowerCase originalName d)
      = String.mk (replaceNotInClass (toLowerCase originalName).data) := by
  unfold removeExtension
  rw [sanitizeFilename_data]
  congr 1
  simp

/-- C7: for every requested name and every downloaded name, `sanitizeFilename` returns
`s` followed by `.svg`, where `s` is the lower-cased requested name with every character
outside `[a-z0-9-_]` removed: every character of `s` is in the class, `s` keeps the order
of the lower-cased name, and the result does not depend on the second argument. -/
theorem sanitizeFilename_spec (toLowerCase : String → String)
    (originalName downloadedName : String) :
    ∃ s : List Char,
      sanitizeFilename toLowerCase originalName downloadedName = String.mk s ++ ".svg" ∧
      s = (toLowerCase originalName).data.filter (fun c => inClass c) ∧
      (∀ c ∈ s, inClass c = true) ∧
      s.Sublist (toLowerCase originalName).data ∧
      ∀ other : String,
        sanitizeFilename toLowerCase originalName other
          = sanitizeFilename toLowerCase originalName downloadedName := by
  refine ⟨replaceNotInClass (toLowerCase originalName).data, rfl,
    replaceNotInClass_eq_filter _, mem_replaceNotInClass _, ?_, fun _ => rfl⟩
  rw [replaceNotInClass_eq_filter]
  exact List.filter_sublist _

/-- C8: sanitization is idempotent: for every requested name, sanitizing the stem of
`sanitizeFilename(name)` (the filename without `.svg`) returns the same filename, for
every `toLowerCase` that lower-cases Basic Latin strings character by character. -/
theorem sanitizeFilename_idempotent (toLowerCase : String → String)
    (hlower : LowersBasicLatin toLowerCase) (name d1 d2 : String) :
    sanitizeFilename toLowerCase
        (removeExtension (sanitizeFilename toLowerCase name d1)) d2
      = sanitizeFilename toLowerCase name d1 := by
  rw [removeExtension_sanitizeFilename]
  have hmem := mem_replaceNotInClass (toLowerCase name).data
  have hlatin : IsBasicLatin (String.mk (replaceNotInClass (toLowerCase name).data)) :=
    fun c hc => (inClass_bounds c (hmem c hc)).1
  have hfix : toLowerCase (String.mk (replaceNotInClass (toLowerCase name).data))
      = String.mk (replaceNotInClass (toLowerCase name).data) := by
    rw [hlower _ hlatin]
    unfold latinToLowerCase
    congr 1
    exact (List.map_congr_left (fun c hc => latinLowerChar_fixed c (hmem c hc))).trans
      (List.map_id _)
  unfold sanitizeFilename
  simp only [hfix]
  rw [replaceNotInClass_fixed _ hmem]

theorem sanitizeFilename_idempotent_witness :
    LowersBasicLatin latinToLowerCase ∧
    sanitizeFilename latinToLowerCase
        (removeExtension (sanitizeFilename latinToLowerCase "Visual Studio Code!" "a.svg"))
        "b.svg"
      = sanitizeFilename latinToLowerCase "Visual Studio Code!" "a.svg" :=
  ⟨fun _ _ => rfl,
   sanitizeFilename_idempotent latinToLowerCase (fun _ _ => rfl)
     "Visual Studio Code!" "a.svg" "b.svg"⟩

/-- C9 (as stated, refuted): with the lower-casing of Basic Latin strings, neither
`"My-Icon!"` nor `"my_icon"` is mapped to `myicon.svg`, and the two filenames differ. -/
theorem sanitizeFilename_my_icon_no_collision :
    ¬ (sanitizeFilename latinToLowerCase "My-Icon!" "my-icon.svg" = "myicon.svg" ∧
       sanitizeFilename latinToLowerCase "my_icon" "my-icon.svg" = "myicon.svg") := by
  decide

/-- C9 (amended): `sanitizeFilename` keeps `-` and `_`: it maps `"My-Icon!"` to
`my-icon.svg` and `"my_icon"` to `my_icon.svg`, two different filenames; the distinct
names `"My-Icon!"` and `"my-icon"` do collide, on `my-icon.svg`. -/
theorem sanitizeFilename_my_icon (toLowerCase : String → String)
    (hlower : LowersBasicLatin toLowerCase) (d1 d2 d3 : String) :
    sanitizeFilename toLowerCase "My-Icon!" d1 = "my-icon.svg" ∧
    sanitizeFilename toLowerCase "my_icon" d2 = "my_icon.svg" ∧
    sanitizeFilename toLowerCase "My-Icon!" d1 ≠ sanitizeFilename toLowerCase "my_icon" d2 ∧
    sanitizeFilename toLowerCase "my-icon" d3 = sanitizeFilename toLowerCase "My-Icon!" d1 := by
  have h1 : toLowerCase "My-Icon!" = "my-icon!" := by
    rw [hlower _ (by decide)]; decide
  have h2 : toLowerCase "my_icon" = "my_icon" := by
    rw [hlower _ (by decide)]; decide
  have h3 : toLowerCase "my-icon" = "my-icon" := by
    rw [hlower _ (by decide)]; decide
  unfold sanitizeFilename
  simp only [h1, h2, h3]
  decide

theorem sanitizeFilename_my_icon_witness :
    LowersBasicLatin latinToLowerCase ∧
    sanitizeFilename latinToLowerCase "My-Icon!" "a" = "my-icon.svg" ∧
    sanitizeFilename latinToLowerCase "my_icon" "b" = "my_icon.svg" ∧
    sanitizeFilename latinToLowerCase "My-Icon!" "a"
      ≠ sanitizeFilename latinToLowerCase "my_icon" "b" ∧
    sanitizeFilename latinToLowerCase "my-icon" "c"
      = sanitizeFilename latinToLowerCase "My-Icon!" "a" :=
  ⟨fun _ _ => rfl, sanitizeFilename_my_icon latinToLowerCase (fun _ _ => rfl) "a" "b" "c"⟩

/-! ## Resolve-and-download protocol: lemmas and claims -/

/-- Every run of the `try` block ends in one of three ways: at line 131 after all steps
succeeded, at line 111 with no match, or at the first step that throws. -/
theorem downloadIconTry_cases {σ ρ : Type} (B : Builtins) (page : Option (Session σ ρ))
    (iconName : String) (tabId : Nat) (s : σ) :
    ∀ r, downloadIconTry B page iconName tabId s = r →
      match r with
      | (.ok o, _) =>
        o.iconName = iconName ∧
        ((o.success = true ∧ StepsSucceeded B page iconName s) ∨
         (o = { success := false, iconName := iconName, matchedName := none,
                filename := none, error := none } ∧ NoMatchFound B page iconName s))
      | (.error e, _) => FirstFault B page iconName s e := by
  intro r h
  unfold downloadIconTry at h
  cases h1 : B.encodeURIComponent iconName with
  | error e =>
    simp only [h1] at h
    subst h
    exact FirstFault.encode e h1
  | ok query =>
  cases page with
  | none =>
    simp only [h1] at h
    subst h
    exact FirstFault.noPage query h1 rfl
  | some P =>
  rcases h2 : P.goto (BASE_URL ++ "?q=" ++ query) s with ⟨e | r1, s1⟩
  · simp only [h1, h2] at h
    subst h
    exact FirstFault.search query P e s1 h1 rfl h2
  rcases h3 : P.waitForSelector "main ul li" s1 with ⟨e | u, s2⟩
  · simp only [h1, h2, h3] at h
    subst h
    exact FirstFault.wait query P r1 e s1 s2 h1 rfl h2 h3
  rcases h4 : P.evaluate s2 with ⟨e | firstLi, s3⟩
  · simp only [h1, h2, h3, h4] at h
    subst h
    exact FirstFault.evaluate query P r1 e s1 s2 s3 h1 rfl h2 h3 h4
  cases h5 : extractSvgData B.trim firstLi with
  | none =>
    simp only [h1, h2, h3, h4, h5] at h
    subst h
    exact ⟨rfl, Or.inr ⟨rfl, query, P, r1, s1, s2, s3, firstLi, h1, rfl, h2, h3, h4,
      Or.inl h5⟩⟩
  | some svgData =>
  by_cases h6 : svgData.svgPath = ""
  · simp only [h1, h2, h3, h4, h5, h6, if_true] at h
    subst h
    exact ⟨rfl, Or.inr ⟨rfl, query, P, r1, s1, s2, s3, firstLi, h1, rfl, h2, h3, h4,
      Or.inr ⟨svgData, h5, h6⟩⟩⟩
  rcases h7 : P.goto ("https://simpleicons.org" ++ svgData.svgPath) s3 with ⟨e | r7, s4⟩
  · simp only [h1, h2, h3, h4, h5, h6, h7, if_false] at h
    subst h
    exact FirstFault.asset query P r1 e s1 s2 s3 s4 firstLi svgData h1 rfl h2 h3 h4 h5 h6 h7
  cases r7 with
  | none =>
    simp only [h1, h2, h3, h4, h5, h6, h7, if_false] at h
    subst h
    exact FirstFault.nullResponse query P r1 s1 s2 s3 s4 firstLi svgData
      h1 rfl h2 h3 h4 h5 h6 h7
  | some svgResponse =>
  rcases h8 : P.text svgResponse s4 with ⟨e | svgContent, s5⟩
  · simp only [h1, h2, h3, h4, h5, h6, h7, h8, if_false] at h
    subst h
    exact FirstFault.text query P r1 e s1 s2 s3 s4 s5 firstLi svgData svgResponse
      h1 rfl h2 h3 h4 h5 h6 h7 h8
  rcases h9 : P.writeFile
      (B.pathJoin B.OUTPUT_DIR (sanitizeFilename B.toLowerCase iconName
        (B.pathBasename svgData.svgPath))) svgContent s5 with ⟨e | u9, s6⟩
  · simp only [h1, h2, h3, h4, h5, h6, h7, h8, h9, if_false] at h
    subst h
    exact FirstFault.write query P r1 e s1 s2 s3 s4 s5 s6 firstLi svgData svgResponse
      svgContent h1 rfl h2 h3 h4 h5 h6 h7 h8 h9
  simp only [h1, h2, h3, h4, h5, h6, h7, h8, h9, if_false] at h
  subst h
  exact ⟨rfl, Or.inl ⟨rfl, query, P, r1, s1, s2, s3, s4, s5, s6, firstLi, svgData,
    svgResponse, svgContent, h1, rfl, h2, h3, h4, h5, h6, h7, h8, h9⟩⟩

theorem downloadIconTry_of_stepsSucceeded {σ ρ : Type} (B : Builtins)
    (page : Option (Session σ ρ)) (iconName : String) (tabId : Nat) (s : σ)
    (h : StepsSucceeded B page iconName s) :
    ∃ o s', downloadIconTry B page iconName tabId s = (.ok o, s') ∧ o.success = true := by
  obtain ⟨query, P, r1, s1, s2, s3, s4, s5, s6, firstLi, svgData, svgResponse, svgContent,
    h1, hP, h2, h3, h4, h5, h6, h7, h8, h9⟩ := h
  subst hP
  refine ⟨{ success := true, iconName := iconName, matchedName := some svgData.iconName,
            filename := some (sanitizeFilename B.toLowerCase iconName
              (B.pathBasename svgData.svgPath)), error := none }, s6, ?_, ?_⟩
  · unfold downloadIconTry
    simp only [h1, h2, h3, h4, h5, h6, h7, h8, h9, if_false]
  · rfl

theorem downloadIconTry_of_noMatchFound {σ ρ : Type} (B : Builtins)
    (page : Option (Session σ ρ)) (iconName : String) (tabId : Nat) (s : σ)
    (h : NoMatchFound B page iconName s) :
    ∃ s', downloadIconTry B page iconName tabId s
      = (.ok { success := false, iconName := iconName, matchedName := none,
               filename := none, error := none }, s') := by
  obtain ⟨query, P, r1, s1, s2, s3, firstLi, h1, hP, h2, h3, h4, h5⟩ := h
  subst hP
  rcases h5 with h5 | ⟨svgData, h5, h6⟩
  · refine ⟨s3, ?_⟩
    unfold downloadIconTry
    simp only [h1, h2, h3, h4, h5]
  · refine ⟨s3, ?_⟩
    unfold downloadIconTry
    simp only [h1, h2, h3, h4, h5, h6, if_true]

theorem downloadIconTry_of_firstFault {σ ρ : Type} (B : Builtins)
    (page : Option (Session σ ρ)) (iconName : String) (tabId : Nat) (s : σ) (e : JsThrown)
    (h : FirstFault B page iconName s e) :
    ∃ s', downloadIconTry B page iconName tabId s = (.error e, s') := by
  cases h with
  | encode _ h1 =>
    exact ⟨s, by unfold downloadIconTry; simp only [h1]⟩
  | noPage query h1 hP =>
    subst hP
    exact ⟨s, by unfold downloadIconTry; simp only [h1]⟩
  | search query P _ s1 h1 hP h2 =>
    subst hP
    exact ⟨s1, by unfold downloadIconTry; simp only [h1, h2]⟩
  | wait query P r1 _ s1 s2 h1 hP h2 h3 =>
    subst hP
    exact ⟨s2, by unfold downloadIconTry; simp only [h1, h2, h3]⟩
  | evaluate query P r1 _ s1 s2 s3 h1 hP h2 h3 h4 =>
    subst hP
    exact ⟨s3, by unfold downloadIconTry; simp only [h1, h2, h3, h4]⟩
  | asset query P r1 _ s1 s2 s3 s4 firstLi svgData h1 hP h2 h3 h4 h5 h6 h7 =>
    subst hP
    exact ⟨s4, by unfold downloadIconTry; simp only [h1, h2, h3, h4, h5, h6, h7, if_false]⟩
  | nullResponse query P r1 s1 s2 s3 s4 firstLi svgData h1 hP h2 h3 h4 h5 h6 h7 =>
    subst hP
    exact ⟨s4, by unfold downloadIconTry; simp only [h1, h2, h3, h4, h5, h6, h7, if_false]⟩
  | text query P r1 _ s1 s2 s3 s4 s5 firstLi svgData svgResponse h1 hP h2 h3 h4 h5 h6 h7 h8 =>
    subst hP
    exact ⟨s5, by
      unfold downloadIconTry; simp only [h1, h2, h3, h4, h5, h6, h7, h8, if_false]⟩
  | write query P r1 _ s1 s2 s3 s4 s5 s6 firstLi svgData svgResponse svgContent
      h1 hP h2 h3 h4 h5 h6 h7 h8 h9 =>
    subst hP
    exact ⟨s6, by
      unfold downloadIconTry; simp only [h1, h2, h3, h4, h5, h6, h7, h8, h9, if_false]⟩

/-- When the built-in and the primitives of the page throw values with a readable message
only, so does the first failing step: the faults raised by the language itself are
`TypeError` objects. -/
theorem firstFault_readable {σ ρ : Type} (B : Builtins) (page : Option (Session σ ρ))
    (iconName : String) (s : σ) (e : JsThrown)
    (hB : EncodeThrowsReadable B) (hpage : ∀ P, page = some P → ThrowsReadable P)
    (h : FirstFault B page iconName s e) : e.hasReadableMessage = true := by
  cases h with
  | encode _ h1 => exact hB _ _ h1
  | noPage query h1 hP => rfl
  | search query P _ s1 h1 hP h2 => exact (hpage P hP).1 _ _ _ _ h2
  | wait query P r1 _ s1 s2 h1 hP h2 h3 => exact (hpage P hP).2.1 _ _ _ _ h3
  | evaluate query P r1 _ s1 s2 s3 h1 hP h2 h3 h4 => exact (hpage P hP).2.2.1 _ _ _ h4
  | asset query P r1 _ s1 s2 s3 s4 firstLi svgData h1 hP h2 h3 h4 h5 h6 h7 =>
    exact (hpage P hP).1 _ _ _ _ h7
  | nullResponse query P r1 s1 s2 s3 s4 firstLi svgData h1 hP h2 h3 h4 h5 h6 h7 => rfl
  | text query P r1 _ s1 s2 s3 s4 s5 firstLi svgData svgResponse h1 hP h2 h3 h4 h5 h6 h7 h8 =>
    exact (hpage P hP).2.2.2.1 _ _ _ _ h8
  | write query P r1 _ s1 s2 s3 s4 s5 s6 firstLi svgData svgResponse svgContent
      h1 hP h2 h3 h4 h5 h6 h7 h8 h9 =>
    exact (hpage P hP).2.2.2.2 _ _ _ _ _ h9

theorem demoBuiltins_encodeThrowsReadable : EncodeThrowsReadable demoBuiltins := by
  intro name e h
  simp [demoBuiltins] at h

theorem demoSession_throwsReadable : ThrowsReadable demoSession := by
  refine ⟨?_, ?_, ?_, ?_, ?_⟩
  · intro url s e s' h
    simp [demoSession] at h
  · intro selector s e s' h
    simp only [demoSession] at h
    split at h
    · simp only [Prod.mk.injEq, Except.error.injEq] at h
      rw [← h.1]
      rfl
    · simp at h
  · intro s e s' h
    simp [demoSession] at h
  · intro r s e s' h
    simp [demoSession] at h
  · intro outputPath svgContent s e s' h
    simp [demoSession] at h

/-- Under readable faults `downloadIcon` returns an Outcome with the requested name. -/
theorem downloadIcon_ok_name {σ ρ : Type} (B : Builtins) (page : Option (Session σ ρ))
    (iconName : String) (tabId : Nat) (s : σ)
    (hfaults : ∀ e, FirstFault B page iconName s e → e.hasReadableMessage = true) :
    ∃ o s', downloadIcon B page iconName tabId s = (.ok o, s') ∧ o.iconName = iconName := by
  unfold downloadIcon
  rcases h : downloadIconTry B page iconName tabId s with ⟨e | o, s1⟩
  · have hf : FirstFault B page iconName s e := downloadIconTry_cases B page iconName tabId s _ h
    have hr := hfaults e hf
    cases e with
    | value message => exact ⟨_, s1, rfl, rfl⟩
    | null => exact absurd hr (by decide)
    | undefined => exact absurd hr (by decide)
    | symbolMessage => exact absurd hr (by decide)
  · exact ⟨o, s1, rfl, (downloadIconTry_cases B page iconName tabId s _ h).1⟩

/-- C5 (as stated, refuted): when the navigation to the search view rejects with `null`,
the handler of lines 133-136 throws on `error.message` and `downloadIcon` returns no
Outcome: the `TypeError` reaches its caller. -/
theorem downloadIcon_null_rejection_escapes :
    (downloadIcon demoBuiltins (some nullRejectSession) "broken" 1 demoStart).1
        = .error (typeError "Cannot read properties of null (reading 'message')") ∧
    ¬ ∃ o, (downloadIcon demoBuiltins (some nullRejectSession) "broken" 1 demoStart).1
        = .ok o := by
  have hrun : (downloadIcon demoBuiltins (some nullRejectSession) "broken" 1 demoStart).1
      = .error (typeError "Cannot read properties of null (reading 'message')") := rfl
  refine ⟨hrun, ?_⟩
  rintro ⟨o, ho⟩
  rw [hrun] at ho
  cases ho

/-- C5 (amended): for every requested name and every behaviour of the session primitives
in which the first failing step, if any, throws a value whose `message` can be read and
printed (every `Error` object; not `null`, `undefined` or a symbol message),
`downloadIcon` returns an Outcome and propagates no fault, the Outcome carries the
requested name, and it has `success = true` exactly when every step (query encoding,
navigation, wait for results, extraction, asset navigation, body read, file write)
succeeded. -/
theorem downloadIcon_outcome {σ ρ : Type} (B : Builtins) (page : Option (Session σ ρ))
    (iconName : String) (tabId : Nat) (s : σ)
    (hfaults : ∀ e, FirstFault B page iconName s e → e.hasReadableMessage = true) :
    ∃ o s', downloadIcon B page iconName tabId s = (.ok o, s') ∧
      o.iconName = iconName ∧
      (o.success = true ↔ StepsSucceeded B page iconName s) := by
  unfold downloadIcon
  rcases h : downloadIconTry B page iconName tabId s with ⟨e | o, s1⟩
  · have hf : FirstFault B page iconName s e := downloadIconTry_cases B page iconName tabId s _ h
    have hr := hfaults e hf
    have hno : ¬ StepsSucceeded B page iconName s := by
      intro hs
      obtain ⟨o2, s2, h2, -⟩ := downloadIconTry_of_stepsSucceeded B page iconName tabId s hs
      rw [h] at h2
      simp at h2
    cases e with
    | value message =>
      refine ⟨_, s1, rfl, rfl, ?_⟩
      constructor
      · intro hs
        simp at hs
      · intro hs
        exact absurd hs hno
    | null => exact absurd hr (by decide)
    | undefined => exact absurd hr (by decide)
    | symbolMessage => exact absurd hr (by decide)
  · obtain ⟨hname, hcases⟩ := downloadIconTry_cases B page iconName tabId s _ h
    refine ⟨o, s1, rfl, hname, ?_⟩
    constructor
    · intro hs
      rcases hcases with ⟨_, hsteps⟩ | ⟨ho, _⟩
      · exact hsteps
      · rw [ho] at hs
        simp at hs
    · intro hs
      obtain ⟨o2, s2, h2, hsucc⟩ := downloadIconTry_of_stepsSucceeded B page iconName tabId s hs
      rw [h] at h2
      simp only [Prod.mk.injEq, Except.ok.injEq] at h2
      rw [h2.1]
      exact hsucc

theorem downloadIcon_outcome_witness :
    (∀ e, FirstFault demoBuiltins (some demoSession) "GitHub" demoStart e →
      e.hasReadableMessage = true) ∧
    (downloadIcon demoBuiltins (some demoSession) "GitHub" 1 demoStart).1
        = .ok { success := true, iconName := "GitHub", matchedName := some "GitHub",
                filename := some "github.svg", error := none } ∧
    ∃ o s', downloadIcon demoBuiltins (some demoSession) "GitHub" 1 demoStart = (.ok o, s') ∧
      o.iconName = "GitHub" ∧
      (o.success = true ↔ StepsSucceeded demoBuiltins (some demoSession) "GitHub" demoStart) :=
  ⟨fun e h => firstFault_readable _ _ _ _ e demoBuiltins_encodeThrowsReadable
      (fun _ hP => Option.some.inj hP ▸ demoSession_throwsReadable) h,
   rfl,
   downloadIcon_outcome demoBuiltins (some demoSession) "GitHub" 1 demoStart
    (fun e h => firstFault_readable _ _ _ _ e demoBuiltins_encodeThrowsReadable
      (fun _ hP => Option.some.inj hP ▸ demoSession_throwsReadable) h)⟩

/-- C6 (as stated, refuted): on a catalog page whose first entry has no image under
`/icons/`, `downloadIcon` returns a failure Outcome without an `error` property. -/
theorem downloadIcon_no_match_without_error :
    (downloadIcon demoBuiltins (some noImageSession) "xxxxxxnonexistentxxxxxx" 1 demoStart).1
      = .ok { success := false, iconName := "xxxxxxnonexistentxxxxxx", matchedName := none,
              filename := none, error := none } := by
  rfl

/-- C6 (amended): when the first failing step (query encoding, navigation, wait for
results, evaluation, asset navigation, body read, file write) throws a value with a
readable `message`, `downloadIcon` returns the failure Outcome that carries the requested
name and, as `error`, the message of that very fault; when no result entry or no image
path could be extracted, it returns the failure Outcome that carries the requested name
only, without `error`; and every failure Outcome it returns is one of these two. -/
theorem downloadIcon_failure_detail {σ ρ : Type} (B : Builtins)
    (page : Option (Session σ ρ)) (iconName : String) (tabId : Nat) (s : σ) :
    (∀ message, FirstFault B page iconName s (.value message) →
      ∃ s', downloadIcon B page iconName tabId s
        = (.ok { success := false, iconName := iconName, matchedName := none,
                 filename := none, error := message }, s')) ∧
    (NoMatchFound B page iconName s →
      ∃ s', downloadIcon B page iconName tabId s
        = (.ok { success := false, iconName := iconName, matchedName := none,
                 filename := none, error := none }, s')) ∧
    (∀ o s', downloadIcon B page iconName tabId s = (.ok o, s') → o.success = false →
      (∃ message, FirstFault B page iconName s (.value message) ∧
        o = { success := false, iconName := iconName, matchedName := none,
              filename := none, error := message }) ∨
      (NoMatchFound B page iconName s ∧
        o = { success := false, iconName := iconName, matchedName := none,
              filename := none, error := none })) := by
  refine ⟨?_, ?_, ?_⟩
  · intro message hf
    obtain ⟨s', h⟩ := downloadIconTry_of_firstFault B page iconName tabId s _ hf
    exact ⟨s', by unfold downloadIcon; rw [h]; rfl⟩
  · intro hn
    obtain ⟨s', h⟩ := downloadIconTry_of_noMatchFound B page iconName tabId s hn
    exact ⟨s', by unfold downloadIcon; rw [h]⟩
  · intro o s' h hfail
    unfold downloadIcon at h
    rcases ht : downloadIconTry B page iconName tabId s with ⟨e | o1, s1⟩
    · have hf : FirstFault B page iconName s e :=
        downloadIconTry_cases B page iconName tabId s _ ht
      rw [ht] at h
      cases e with
      | value message =>
        simp only [downloadIconCatch, Prod.mk.injEq, Except.ok.injEq] at h
        exact Or.inl ⟨message, hf, h.1.symm⟩
      | null => simp [downloadIconCatch] at h
      | undefined => simp [downloadIconCatch] at h
      | symbolMessage => simp [downloadIconCatch] at h
    · obtain ⟨-, hcases⟩ := downloadIconTry_cases B page iconName tabId s _ ht
      rw [ht] at h
      simp only [Prod.mk.injEq, Except.ok.injEq] at h
      obtain ⟨ho, -⟩ := h
      subst ho
      rcases hcases with ⟨hs, _⟩ | ⟨ho, hno⟩
      · rw [hfail] at hs
        exact absurd hs (by decide)
      · exact Or.inr ⟨hno, ho⟩

theorem downloadIcon_failure_detail_witness :
    FirstFault demoBuiltins (some demoSession) "xxxxxxnonexistentxxxxxx" demoStart
      (.value (some "Waiting for selector failed: timeout 15000ms exceeded")) ∧
    ∃ s', downloadIcon demoBuiltins (some demoSession) "xxxxxxnonexistentxxxxxx" 1 demoStart
      = (.ok { success := false, iconName := "xxxxxxnonexistentxxxxxx", matchedName := none,
               filename := none,
               error := some "Waiting for selector failed: timeout 15000ms exceeded" }, s') :=
  ⟨FirstFault.wait "xxxxxxnonexistentxxxxxx" demoSession
      (some (BASE_URL ++ "?q=" ++ "xxxxxxnonexistentxxxxxx")) _
      { url := BASE_URL ++ "?q=" ++ "xxxxxxnonexistentxxxxxx", files := [] }
      { url := BASE_URL ++ "?q=" ++ "xxxxxxnonexistentxxxxxx", files := [] }
      rfl rfl rfl rfl,
   (downloadIcon_failure_detail demoBuiltins (some demoSession) "xxxxxxnonexistentxxxxxx" 1
      demoStart).1 _
     (FirstFault.wait "xxxxxxnonexistentxxxxxx" demoSession
      (some (BASE_URL ++ "?q=" ++ "xxxxxxnonexistentxxxxxx")) _
      { url := BASE_URL ++ "?q=" ++ "xxxxxxnonexistentxxxxxx", files := [] }
      { url := BASE_URL ++ "?q=" ++ "xxxxxxnonexistentxxxxxx", files := [] }
      rfl rfl rfl rfl)⟩

/-! ## Fetch session and orchestration: lemmas and claims -/

theorem processIconBatchLoop_spec {σ ρ : Type} (B : Builtins) (page : Option (Session σ ρ))
    (tabId totalIcons : Nat) (hB : EncodeThrowsReadable B)
    (hpage : ∀ P, page = some P → ThrowsReadable P) :
    ∀ (iconNames : List String) (results : List Outcome) (s : σ),
      ∃ outs s', processIconBatchLoop B page tabId totalIcons iconNames results s
          = (.ok (results ++ outs), s') ∧
        outs.map (fun o => o.iconName) = iconNames := by
  intro iconNames
  induction iconNames with
  | nil =>
    intro results s
    exact ⟨[], s, by simp [processIconBatchLoop], rfl⟩
  | cons iconName rest ih =>
    intro results s
    obtain ⟨o, s1, ho, hname⟩ := downloadIcon_ok_name B page iconName tabId s
      (fun e h => firstFault_readable B page iconName s e hB hpage h)
    obtain ⟨outs, s2, hloop, hnames⟩ := ih (results ++ [o]) s1
    refine ⟨o :: outs, s2, ?_, ?_⟩
    · unfold processIconBatchLoop
      simp only [ho, hloop, List.append_assoc, List.singleton_append]
    · simp [hname, hnames]

theorem processIconBatch_spec {σ ρ : Type} (B : Builtins) (page : Option (Session σ ρ))
    (iconNames : List String) (tabId totalIcons : Nat) (s : σ)
    (hB : EncodeThrowsReadable B) (hpage : ∀ P, page = some P → ThrowsReadable P) :
    ∃ outs, (processIconBatch B page iconNames tabId totalIcons s).1 = .ok outs ∧
      outs.map (fun o => o.iconName) = iconNames := by
  obtain ⟨outs, s', h, hn⟩ :=
    processIconBatchLoop_spec B page tabId totalIcons hB hpage iconNames [] s
  refine ⟨outs, ?_, hn⟩
  unfold processIconBatch
  rw [h]
  simp

theorem promiseAll_sessions {σ ρ : Type} (B : Builtins) (pages : List (Session σ ρ))
    (sessionState : Nat → σ) (totalIcons : Nat) (hB : EncodeThrowsReadable B)
    (hpages : ∀ P ∈ pages, ThrowsReadable P) :
    ∀ (iconChunks : List (List String)) (start : Nat),
      ∃ allResults,
        promiseAll (mapWithIndex (fun chunk index =>
          (processIconBatch B pages[index]? chunk (index + 1) totalIcons
            (sessionState index)).1) start iconChunks) = .ok allResults ∧
        allResults.map (fun rs => rs.map (fun o => o.iconName)) = iconChunks := by
  intro iconChunks
  induction iconChunks with
  | nil =>
    intro start
    exact ⟨[], rfl, rfl⟩
  | cons chunk rest ih =>
    intro start
    obtain ⟨outs, hout, hnames⟩ :=
      processIconBatch_spec B pages[start]? chunk (start + 1) totalIcons (sessionState start)
        hB (fun P hP => hpages P (List.getElem?_mem hP))
    obtain ⟨others, hothers, hrest⟩ := ih (start + 1)
    refine ⟨outs :: others, ?_, ?_⟩
    · unfold mapWithIndex
      simp only [hout]
      unfold promiseAll
      simp only [hothers]
    · simp [hnames, hrest]

theorem createPages_length {β σ ρ : Type} (Br : Browser β σ ρ) :
    ∀ (n : Nat) (acc pages : List (Session σ ρ)) (b b1 : β),
      createPages Br n acc b = (.ok pages, b1) → pages.length = acc.length + n := by
  intro n
  induction n with
  | zero =>
    intro acc pages b b1 h
    simp only [createPages, Prod.mk.injEq, Except.ok.injEq] at h
    rw [← h.1]
    rfl
  | succ n ih =>
    intro acc pages b b1 h
    unfold createPages at h
    rcases h1 : Br.newPage b with ⟨e | page, b2⟩
    · simp [h1] at h
    rcases h2 : Br.setViewport page b2 with ⟨e | u, b3⟩
    · simp [h1, h2] at h
    simp only [h1, h2] at h
    have := ih _ _ _ _ h
    simp only [List.length_append, List.length_singleton] at this
    omega

/-- A failing name does not stop its session: in one session the search for
`xxxxxxnonexistentxxxxxx` times out and the next name is still downloaded. -/
theorem processIconBatch_isolation_example :
    (processIconBatch demoBuiltins (some demoSession)
        ["xxxxxxnonexistentxxxxxx", "GitHub"] 1 9 demoStart).1
      = .ok [{ success := false, iconName := "xxxxxxnonexistentxxxxxx", matchedName := none,
               filename := none,
               error := some "Waiting for selector failed: timeout 15000ms exceeded" },
             { success := true, iconName := "GitHub", matchedName := some "GitHub",
               filename := some "github.svg", error := none }] := by
  rfl

/-- C4 (as stated, refuted): with two names in two sessions, the navigation for `broken`
rejects with `null`; the fault leaves `downloadIcon`, `processIconBatch` and
`Promise.all`, and `main` builds no result list, so the Outcome of `GitHub` is lost
too. -/
theorem mainFetch_null_rejection_loses_results :
    mainFetch demoBuiltins nullRejectBrowser (.ok ()) (fun _ => demoStart) 3
        ["GitHub", "broken"]
      = .throws (typeError "Cannot read properties of null (reading 'message')") ∧
    ¬ ∃ rs, mainFetch demoBuiltins nullRejectBrowser (.ok ()) (fun _ => demoStart) 3
        ["GitHub", "broken"] = .results rs := by
  have hrun : mainFetch demoBuiltins nullRejectBrowser (.ok ()) (fun _ => demoStart) 3
      ["GitHub", "broken"]
        = .throws (typeError "Cannot read properties of null (reading 'message')") := rfl
  refine ⟨hrun, ?_⟩
  rintro ⟨rs, h⟩
  rw [hrun] at h
  cases h

/-- C4 (amended): in every run that reaches the fetch phase (names were read, the browser
and its tabs were created) and in which whatever a session primitive throws has a
readable `message` (not `null`, `undefined` or a symbol message), each per-name
operation may succeed or fail and `main` builds at line 239 a result list with exactly
one Outcome per requested name: its length is `N` and its sequence of `iconName` fields
is the input name list. -/
theorem mainFetch_one_outcome_per_name {β σ ρ : Type} (B : Builtins) (Br : Browser β σ ρ)
    (launch : Except JsThrown β) (sessionState : Nat → σ) (fuel : Nat)
    (iconNames : List String) (b0 b1 : β) (pages : List (Session σ ρ))
    (hne : iconNames ≠ []) (hfuel : iconNames.length < fuel)
    (hlaunch : launch = .ok b0)
    (hpages : createPages Br PARALLEL_TABS [] b0 = (.ok pages, b1))
    (hB : EncodeThrowsReadable B) (hread : ∀ P ∈ pages, ThrowsReadable P) :
    ∃ rs, mainFetch B Br launch sessionState fuel iconNames = .results rs ∧
      rs.length = iconNames.length ∧
      rs.map (fun o => o.iconName) = iconNames := by
  obtain ⟨iconChunks, hchunks, hflat⟩ :
      ∃ chunks, chunkArray fuel iconNames PARALLEL_TABS = some chunks ∧
        chunks.flatten = iconNames :=
    ⟨_, chunkArray_eq iconNames PARALLEL_TABS fuel (by decide) hfuel,
      slicesFrom_cover iconNames PARALLEL_TABS (by decide)⟩
  obtain ⟨allResults, hall, hnames⟩ :=
    promiseAll_sessions B pages sessionState iconNames.length hB hread iconChunks 0
  have hmap : allResults.flatten.map (fun o => o.iconName) = iconNames := by
    rw [List.map_flatten, hnames, hflat]
  refine ⟨allResults.flatten, ?_, ?_, hmap⟩
  · unfold mainFetch
    have hlen : ¬ iconNames.length = 0 := fun h => hne (List.length_eq_zero.mp h)
    rw [if_neg hlen]
    simp only [hlaunch, hpages, hchunks, hall]
  · rw [← hmap, List.length_map]

theorem mainFetch_one_outcome_per_name_witness :
    EncodeThrowsReadable demoBuiltins ∧
    (∀ P ∈ List.replicate 8 demoSession, ThrowsReadable P) ∧
    ∃ rs, mainFetch demoBuiltins demoBrowser (.ok ()) (fun _ => demoStart) 10
        ["xxxxxxnonexistentxxxxxx", "GitHub", "c", "d", "e", "f", "g", "h", "i"]
        = .results rs ∧
      rs.length = ["xxxxxxnonexistentxxxxxx", "GitHub", "c", "d", "e", "f", "g", "h", "i"].length ∧
      rs.map (fun o => o.iconName)
        = ["xxxxxxnonexistentxxxxxx", "GitHub", "c", "d", "e", "f", "g", "h", "i"] :=
  ⟨demoBuiltins_encodeThrowsReadable,
   fun _ hP => List.eq_of_mem_replicate hP ▸ demoSession_throwsReadable,
   mainFetch_one_outcome_per_name demoBuiltins demoBrowser (.ok ()) (fun _ => demoStart) 10
    ["xxxxxxnonexistentxxxxxx", "GitHub", "c", "d", "e", "f", "g", "h", "i"] () ()
    (List.replicate 8 demoSession) (by decide) (by decide) rfl rfl
    demoBuiltins_encodeThrowsReadable
    (fun _ hP => List.eq_of_mem_replicate hP ▸ demoSession_throwsReadable)⟩

/-- C10: for every list of names and every worker count `W ≥ 1` the loop of `chunkArray`
stops and returns at most `W` chunks; in `main`, where the count is `PARALLEL_TABS` and
`pages` holds the `PARALLEL_TABS` created tabs, every chunk index is below
`PARALLEL_TABS` and `pages[index]` is a created tab, not `undefined`. -/
theorem chunk_index_has_page {β σ ρ α : Type} (Br : Browser β σ ρ) (names : List α)
    (W fuel : Nat) (b0 b1 : β) (pages : List (Session σ ρ))
    (hW : 1 ≤ W) (hfuel : names.length < fuel)
    (hpages : createPages Br PARALLEL_TABS [] b0 = (.ok pages, b1)) :
    (∃ chunks, chunkArray fuel names W = some chunks ∧ chunks.length ≤ W) ∧
    (∃ iconChunks, chunkArray fuel names PARALLEL_TABS = some iconChunks ∧
      ∀ index, index < iconChunks.length →
        index < PARALLEL_TABS ∧ ∃ page, pages[index]? = some page) := by
  constructor
  · refine ⟨_, chunkArray_eq names W fuel hW hfuel, ?_⟩
    rw [slicesFrom_length]
    exact le_trans (chunk_count_le hW) (Nat.min_le_left _ _)
  · refine ⟨_, chunkArray_eq names PARALLEL_TABS fuel (by decide) hfuel, ?_⟩
    intro index hindex
    rw [slicesFrom_length] at hindex
    have hle : index < PARALLEL_TABS :=
      lt_of_lt_of_le hindex (le_trans (chunk_count_le (by decide)) (Nat.min_le_left _ _))
    have hlen := createPages_length Br PARALLEL_TABS [] pages b0 b1 hpages
    simp only [List.length_nil, Nat.zero_add] at hlen
    have hidx : index < pages.length := by omega
    exact ⟨hle, pages[index], List.getElem?_eq_getElem hidx⟩

theorem chunk_index_has_page_witness :
    (∃ chunks, chunkArray 10 ["a", "b", "c", "d", "e", "f", "g", "h", "i"] 4 = some chunks ∧
      chunks.length ≤ 4) ∧
    (∃ iconChunks,
      chunkArray 10 ["a", "b", "c", "d", "e", "f", "g", "h", "i"] PARALLEL_TABS
        = some iconChunks ∧
      ∀ index, index < iconChunks.length →
        index < PARALLEL_TABS ∧ ∃ page, (List.replicate 8 demoSession)[index]? = some page) :=
  chunk_index_has_page demoBrowser ["a", "b", "c", "d", "e", "f", "g", "h", "i"] 4 10 () ()
    (List.replicate 8 demoSession) (by decide) (by decide) rfl

end Scraper
